import Mathlib

/-!
# Verification of the allow2automate-playstation core

Shallow embedding of the PlayStation Network API wrapper
(`src/playstation-api.js`, class `PlayStationAPI`) and the plugin layer
(`index.js`, class `PlayStationPlugin`), together with proofs of the
spec's testable properties.

The source is single-threaded cooperative JavaScript; stateful methods
are embedded as explicit state-passing functions, and every external
effect (the OAuth token endpoint, the family-management REST surface,
the Allow2 quota collaborator) is parameterised by an environment that
supplies the outcome of each outbound call.  Observable behaviour
(outbound calls, emitted notifications, per-request resolutions) is
returned as explicit event lists.
-/

namespace PSN

/-! ## Rate-limited request pipeline (`request` / `_processQueue`)

`request(method, endpoint, data)` pushes `{ method, endpoint, data,
resolve, reject }` onto `this.requestQueue` and triggers
`_processQueue()`.  The `isProcessingQueue` flag guarantees a single
drain loop; the loop `shift`s the front request, performs the axios
call, resolves or rejects that request's own promise with the outcome,
and, if the queue is still non-empty, awaits a `RATE_LIMIT_MS` delay
before the next iteration.  We embed one drain of a submission sequence
as a function from the queued list to the trace of events observable at
the remote transport. -/

/-- A queued request, as pushed by `request` (the resolution callbacks
are represented implicitly by position: the trace records which request
each outcome is delivered to). -/
structure QueuedRequest where
  method : String
  endpoint : String
  payload : Option String
deriving Repr, DecidableEq, Inhabited

/-- Outcome supplied by the remote transport for one outbound axios
call: either a response payload or a transport/HTTP error carrying the
original status and message. -/
inductive Outcome where
  | success (payload : String)
  | failure (status : Nat) (message : String)
deriving Repr, DecidableEq

/-- `RATE_LIMIT_MS = 100` in the constructor of `PlayStationAPI`. -/
def RATE_LIMIT_MS : Nat := 100

/-- Events observable while `_processQueue` drains: start of an
outbound call, its completion (`resolve`/`reject` with the transport
outcome), and the inter-request rate-limiting delay. -/
inductive Event where
  | callStart (r : QueuedRequest)
  | callEnd (r : QueuedRequest) (o : Outcome)
  | delay (ms : Nat)
deriving Repr, DecidableEq

/-- Trace semantics of `_processQueue`: `shift` the front request,
perform its outbound call, deliver its outcome, and insert the
rate-limit delay exactly when the queue is still non-empty
(`if (this.requestQueue.length > 0)` in the source). -/
def processQueue (env : QueuedRequest → Outcome) : List QueuedRequest → List Event
  | [] => []
  | r :: rest =>
      Event.callStart r :: Event.callEnd r (env r) ::
        (if rest.isEmpty then processQueue env rest
         else Event.delay RATE_LIMIT_MS :: processQueue env rest)

/-- The requests whose outbound call was started, in trace order. -/
def startsOf (t : List Event) : List QueuedRequest :=
  t.filterMap fun e =>
    match e with
    | Event.callStart r => some r
    | _ => none

/-- The delivered resolutions: each completed request paired with the
outcome handed to its own `resolve`/`reject`, in trace order. -/
def endsOf (t : List Event) : List (QueuedRequest × Outcome) :=
  t.filterMap fun e =>
    match e with
    | Event.callEnd r o => some (r, o)
    | _ => none

/-- Running maximum of the number of outbound calls in flight, scanning
the trace left to right with current count `c` and maximum so far `m`. -/
def runMax (c m : Nat) : List Event → Nat
  | [] => m
  | Event.callStart _ :: t => runMax (c + 1) (max m (c + 1)) t
  | Event.callEnd _ _ :: t => runMax (c - 1) m t
  | Event.delay _ :: t => runMax c m t

/-- The maximum number of outbound calls simultaneously in flight at
any instant of the trace. -/
def maxInFlight (t : List Event) : Nat := runMax 0 0 t

theorem startsOf_processQueue (env : QueuedRequest → Outcome) :
    ∀ q : List QueuedRequest, startsOf (processQueue env q) = q := by
  intro q
  induction q with
  | nil => rfl
  | cons r rest ih =>
    cases rest with
    | nil => simp [processQueue, startsOf]
    | cons r2 rest2 =>
      simp only [processQueue, List.isEmpty_cons, Bool.false_eq_true, if_false] at *
      simpa [startsOf, List.filterMap_cons] using ih

theorem endsOf_processQueue (env : QueuedRequest → Outcome) :
    ∀ q : List QueuedRequest,
      endsOf (processQueue env q) = q.map fun r => (r, env r) := by
  intro q
  induction q with
  | nil => rfl
  | cons r rest ih =>
    cases rest with
    | nil => simp [processQueue, endsOf]
    | cons r2 rest2 =>
      simp only [processQueue, List.isEmpty_cons, Bool.false_eq_true, if_false] at *
      simpa [endsOf, List.filterMap_cons] using ih

theorem runMax_processQueue (env : QueuedRequest → Outcome) :
    ∀ (q : List QueuedRequest) (m : Nat),
      runMax 0 m (processQueue env q) ≤ max m 1 := by
  intro q
  induction q with
  | nil => intro m; simp [processQueue, runMax]
  | cons r rest ih =>
    intro m
    cases rest with
    | nil =>
      simp [processQueue, runMax]
    | cons r2 rest2 =>
      simp only [processQueue, List.isEmpty_cons, Bool.false_eq_true, if_false,
        runMax]
      have h := ih (max m 1)
      calc runMax 0 (max m 1) (processQueue env (r2 :: rest2))
          ≤ max (max m 1) 1 := h
        _ = max m 1 := by omega

/-- C1: strict FIFO and single in-flight call.  For every submission
sequence `q`, the outbound calls started while the queue drains are
exactly the submitted requests in submission order (no reordering, no
priority), and at no instant is more than one outbound call in
flight. -/
theorem pipeline_fifo_single_inflight (env : QueuedRequest → Outcome)
    (q : List QueuedRequest) :
    startsOf (processQueue env q) = q ∧ maxInFlight (processQueue env q) ≤ 1 := by
  refine ⟨startsOf_processQueue env q, ?_⟩
  have h := runMax_processQueue env q 0
  simpa [maxInFlight] using h

/-- C4: inter-request spacing.  Between any two consecutively executed
requests the pipeline inserts the fixed `RATE_LIMIT_MS = 100` delay
(after the completion of the first and before the start of the second),
and the trace of a non-empty queue ends with the completion of the last
request — no delay is awaited after the final request. -/
theorem pipeline_spacing :
    (∀ (env : QueuedRequest → Outcome) (r r2 : QueuedRequest)
        (rest : List QueuedRequest),
      processQueue env (r :: r2 :: rest) =
        Event.callStart r :: Event.callEnd r (env r) ::
          Event.delay RATE_LIMIT_MS :: processQueue env (r2 :: rest))
    ∧ (∀ (env : QueuedRequest → Outcome) (q : List QueuedRequest),
        (processQueue env q).getLast? =
          q.getLast?.map fun r => Event.callEnd r (env r))
    ∧ RATE_LIMIT_MS = 100 := by
  refine ⟨?_, ?_, rfl⟩
  · intro env r r2 rest
    simp [processQueue]
  · intro env q
    induction q with
    | nil => rfl
    | cons r rest ih =>
      cases rest with
      | nil => simp [processQueue]
      | cons r2 rest2 =>
        obtain ⟨a, l, hal⟩ : ∃ a l, processQueue env (r2 :: rest2) = a :: l :=
          ⟨_, _, rfl⟩
        have h1 : processQueue env (r :: r2 :: rest2) =
            Event.callStart r :: Event.callEnd r (env r) ::
              Event.delay RATE_LIMIT_MS :: processQueue env (r2 :: rest2) := by
          simp [processQueue]
        rw [h1, hal]
        simp only [List.getLast?_cons_cons]
        rw [← hal, ih]

/-- C5: failure isolation in the pipeline.  Every queued request —
including each one whose outbound call fails — receives exactly one
resolution, carrying verbatim the transport outcome of its own single
execution attempt (the original status/message on failure); requests
are never retried by the pipeline, and requests queued after a failed
one are still executed and resolved independently. -/
theorem pipeline_failure_isolation (env : QueuedRequest → Outcome)
    (q : List QueuedRequest) :
    endsOf (processQueue env q) = q.map (fun r => (r, env r)) ∧
      ∀ r ∈ q, (r, env r) ∈ endsOf (processQueue env q) := by
  refine ⟨endsOf_processQueue env q, ?_⟩
  intro r hr
  rw [endsOf_processQueue env q]
  exact List.mem_map_of_mem _ hr

/-- Witness for `pipeline_failure_isolation`: with a transport failing
the first of two queued requests, the failing request's own resolution
carries its original status and message, and the second request is
still executed and resolved with its own success payload. -/
theorem pipeline_failure_isolation_witness :
    ((⟨"GET", "/a", none⟩ : QueuedRequest), Outcome.failure 500 "boom") ∈
      endsOf (processQueue
        (fun r => if r.endpoint = "/a" then Outcome.failure 500 "boom"
          else Outcome.success "ok")
        [⟨"GET", "/a", none⟩, ⟨"GET", "/b", none⟩])
    ∧ ((⟨"GET", "/b", none⟩ : QueuedRequest), Outcome.success "ok") ∈
      endsOf (processQueue
        (fun r => if r.endpoint = "/a" then Outcome.failure 500 "boom"
          else Outcome.success "ok")
        [⟨"GET", "/a", none⟩, ⟨"GET", "/b", none⟩]) := by
  constructor
  · exact (pipeline_failure_isolation _ _).2 ⟨"GET", "/a", none⟩
      (List.mem_cons_self _ _)
  · exact (pipeline_failure_isolation _ _).2 ⟨"GET", "/b", none⟩
      (List.mem_cons_of_mem _ (List.mem_cons_self _ _))

/-! ## Token manager (`authenticate` / `refreshAccessToken` / `ensureAuthenticated`)

The mutable fields of `PlayStationAPI` relevant to the token lifecycle
are `npsso`, `accessToken`, `refreshToken` and `tokenExpiry`
(millisecond timestamp or `null`).  JavaScript truthiness matters:
`if (!this.npsso)`, `if (!this.accessToken)` and
`if (this.tokenExpiry && ...)` treat `null`, `undefined`, the empty
string and `0` as false; we embed the nullable fields as `Option` and
make the truthiness tests explicit.  The two grant types of the OAuth
token endpoint are modelled by an environment giving each exchange's
outcome. -/

/-- Token fields of the `PlayStationAPI` instance. -/
structure APIState where
  npsso : Option String
  accessToken : Option String
  refreshToken : Option String
  tokenExpiry : Option Nat
deriving Repr, DecidableEq

/-- JavaScript truthiness of a nullable string field: `null`/absent and
the empty string are falsy. -/
def truthyStr (s : Option String) : Bool :=
  match s with
  | some v => v ≠ ""
  | none => false

/-- Body of a successful token-endpoint response. -/
structure TokenData where
  access_token : String
  refresh_token : String
  expires_in : Nat
deriving Repr, DecidableEq

/-- Outcomes of the two grant types at the OAuth token endpoint
(`npsso_code` for `authenticate`, `refresh_token` for
`refreshAccessToken`); an `Except.error` carries the axios error
message. -/
structure AuthEnv where
  authResult : Except String TokenData
  refreshResult : Except String TokenData
deriving Repr

/-- Which token-endpoint exchange was performed, in order. -/
inductive TokenCall where
  | authCall
  | refreshCall
deriving Repr, DecidableEq

/-- Shared tail of `authenticate` and `refreshAccessToken`: install the
response's token pair and set `tokenExpiry = Date.now() +
expires_in * 1000`. -/
def installTokens (now : Nat) (td : TokenData) (st : APIState) : APIState :=
  { st with
    accessToken := some td.access_token
    refreshToken := some td.refresh_token
    tokenExpiry := some (now + td.expires_in * 1000) }

/-- `authenticate()`: throws when `npsso` is falsy (the throw happens
inside the `try`, so it too is re-wrapped by the `catch`), otherwise
performs the `npsso_code` exchange; on success installs the new token
pair, on failure re-throws the wrapped error.  Returns the result
together with the list of token-endpoint calls performed. -/
def authenticate (now : Nat) (env : AuthEnv) (st : APIState) :
    Except String APIState × List TokenCall :=
  if truthyStr st.npsso then
    match env.authResult with
    | Except.ok td => (Except.ok (installTokens now td st), [TokenCall.authCall])
    | Except.error m =>
        (Except.error ("PSN authentication failed: " ++ m), [TokenCall.authCall])
  else
    (Except.error
      "PSN authentication failed: NPSSO token is required for authentication", [])

/-- `refreshAccessToken()`: performs the `refresh_token` exchange; on
success installs the new token pair; on failure falls back to
`authenticate()` (`return await this.authenticate()` in the `catch`),
whose outcome is then the outcome of the refresh attempt. -/
def refreshAccessToken (now : Nat) (env : AuthEnv) (st : APIState) :
    Except String APIState × List TokenCall :=
  match env.refreshResult with
  | Except.ok td => (Except.ok (installTokens now td st), [TokenCall.refreshCall])
  | Except.error _ =>
      let fb := authenticate now env st
      (fb.1, TokenCall.refreshCall :: fb.2)

/-- `ensureAuthenticated()` (the spec's `ensureValid`): full
authentication when `accessToken` is falsy; otherwise a refresh exactly
when `tokenExpiry` is truthy and `Date.now() + 300000 >= tokenExpiry`
(the 5-minute safety margin); otherwise no token exchange at all. -/
def ensureAuthenticated (now : Nat) (env : AuthEnv) (st : APIState) :
    Except String APIState × List TokenCall :=
  if ¬ truthyStr st.accessToken then
    authenticate now env st
  else
    match st.tokenExpiry with
    | some e =>
        if e ≠ 0 ∧ now + 300000 ≥ e then refreshAccessToken now env st
        else (Except.ok st, [])
    | none => (Except.ok st, [])

/-- C2: the safety-margin trichotomy of `ensureValid`.  With no access
token the call is a full authenticate exchange from the credential;
with a token pair whose expiry lies within the 5-minute margin
(`now + 300000 ≥ expiresAt`) it is the refresh exchange (whose first
outbound call is the `refresh_token` grant); with an expiry outside the
margin it performs no token exchange and returns normally. -/
theorem ensureAuthenticated_margin_cases (now : Nat) (env : AuthEnv)
    (st : APIState) :
    (st.accessToken = none →
      ensureAuthenticated now env st = authenticate now env st)
    ∧ (∀ e : Nat, truthyStr st.accessToken → st.tokenExpiry = some e → 0 < e →
        now + 300000 ≥ e →
        ensureAuthenticated now env st = refreshAccessToken now env st
          ∧ (refreshAccessToken now env st).2.head? = some TokenCall.refreshCall)
    ∧ (∀ e : Nat, truthyStr st.accessToken → st.tokenExpiry = some e →
        now + 300000 < e →
        ensureAuthenticated now env st = (Except.ok st, [])) := by
  refine ⟨?_, ?_, ?_⟩
  · intro h
    simp [ensureAuthenticated, h, truthyStr]
  · intro e htok hexp hpos hmargin
    constructor
    · simp [ensureAuthenticated, htok, hexp, Nat.pos_iff_ne_zero.mp hpos, hmargin]
    · cases hres : env.refreshResult with
      | ok td => simp [refreshAccessToken, hres]
      | error m => simp [refreshAccessToken, hres]
  · intro e htok hexp hmargin
    have h2 : ¬ (e ≠ 0 ∧ now + 300000 ≥ e) := by omega
    simp [ensureAuthenticated, htok, hexp, h2]

/-- Witness for `ensureAuthenticated_margin_cases` at concrete inputs:
a fresh state with no token authenticates; a token expiring now
refreshes; a token expiring in an hour triggers nothing. -/
theorem ensureAuthenticated_margin_cases_witness :
    (ensureAuthenticated 1000 ⟨Except.ok ⟨"a", "r", 3600⟩, Except.ok ⟨"a2", "r2", 3600⟩⟩
        ⟨some "npsso", none, none, none⟩ =
      authenticate 1000 ⟨Except.ok ⟨"a", "r", 3600⟩, Except.ok ⟨"a2", "r2", 3600⟩⟩
        ⟨some "npsso", none, none, none⟩)
    ∧ (ensureAuthenticated 1000 ⟨Except.ok ⟨"a", "r", 3600⟩, Except.ok ⟨"a2", "r2", 3600⟩⟩
        ⟨some "npsso", some "tok", some "ref", some 2000⟩ =
      refreshAccessToken 1000 ⟨Except.ok ⟨"a", "r", 3600⟩, Except.ok ⟨"a2", "r2", 3600⟩⟩
        ⟨some "npsso", some "tok", some "ref", some 2000⟩)
    ∧ (ensureAuthenticated 1000 ⟨Except.ok ⟨"a", "r", 3600⟩, Except.ok ⟨"a2", "r2", 3600⟩⟩
        ⟨some "npsso", some "tok", some "ref", some 3601000⟩ =
      (Except.ok ⟨some "npsso", some "tok", some "ref", some 3601000⟩, [])) := by
  refine ⟨?_, ?_, ?_⟩
  · exact (ensureAuthenticated_margin_cases 1000 _ _).1 rfl
  · exact ((ensureAuthenticated_margin_cases 1000 _ _).2.1 2000 (by decide) rfl
      (by decide) (by decide)).1
  · exact (ensureAuthenticated_margin_cases 1000 _ _).2.2 3601000 (by decide) rfl
      (by decide)

/-- Whether an embedded `try`/`catch` outcome is a success. -/
def isOkE {α : Type} (r : Except String α) : Bool :=
  match r with
  | Except.ok _ => true
  | Except.error _ => false

/-- C3 counterexample: the claim's failure characterization ("ensureValid
fails only when both the refresh and the fallback re-authentication
fail, or when the Credential is absent/empty") is false on the code.
With no access token, a present non-empty NPSSO credential and a
failing initial `authenticate` exchange, `ensureAuthenticated` fails
while no refresh exchange is ever attempted (the single token-endpoint
call is the `npsso_code` grant) — even though the refresh grant would
have succeeded. -/
theorem ensureValid_failure_claim_cex :
    (ensureAuthenticated 1000
        ⟨Except.error "network down", Except.ok ⟨"a", "r", 3600⟩⟩
        ⟨some "npsso", none, none, none⟩).1 =
      Except.error "PSN authentication failed: network down"
    ∧ (ensureAuthenticated 1000
        ⟨Except.error "network down", Except.ok ⟨"a", "r", 3600⟩⟩
        ⟨some "npsso", none, none, none⟩).2 = [TokenCall.authCall]
    ∧ truthyStr (some "npsso") = true
    ∧ isOkE (Except.ok (⟨"a", "r", 3600⟩ : TokenData)) = true := by
  exact ⟨rfl, rfl, by decide, rfl⟩

/-- C3 (amended): for every refresh attempt that fails, exactly one
full re-authentication follows (a single `authenticate` invocation,
issuing exactly one `npsso_code` exchange when the credential is
present) and its outcome is propagated; and `ensureValid` fails exactly
when the full authentication fails (credential absent/empty, or the
authenticate exchange itself fails) — either directly because no access
token exists, or as the fallback after a failing refresh of a token
pair inside the safety margin. -/
theorem ensureValid_refresh_fallback (now : Nat) (env : AuthEnv)
    (st : APIState) :
    (∀ m, env.refreshResult = Except.error m →
        refreshAccessToken now env st =
          ((authenticate now env st).1,
            TokenCall.refreshCall :: (authenticate now env st).2)
          ∧ (authenticate now env st).2.count TokenCall.authCall ≤ 1
          ∧ (truthyStr st.npsso →
              (authenticate now env st).2 = [TokenCall.authCall]))
    ∧ (isOkE (ensureAuthenticated now env st).1 = false ↔
        (isOkE (authenticate now env st).1 = false
          ∧ (¬ truthyStr st.accessToken
             ∨ ∃ e, st.tokenExpiry = some e ∧ e ≠ 0 ∧ now + 300000 ≥ e
                 ∧ isOkE env.refreshResult = false))) := by
  constructor
  · intro m hm
    refine ⟨?_, ?_, ?_⟩
    · simp [refreshAccessToken, hm]
    · by_cases h : truthyStr st.npsso
      · cases hres : env.authResult with
        | ok td => simp [authenticate, h, hres]
        | error m2 => simp [authenticate, h, hres]
      · simp [authenticate, h]
    · intro h
      cases hres : env.authResult with
      | ok td => simp [authenticate, h, hres]
      | error m2 => simp [authenticate, h, hres]
  · by_cases hacc : truthyStr st.accessToken
    · cases hexp : st.tokenExpiry with
      | none =>
        have hE : ensureAuthenticated now env st = (Except.ok st, []) := by
          unfold ensureAuthenticated
          rw [if_neg (by simp [hacc])]
          simp only [hexp]
        rw [hE]
        refine ⟨fun h => by simp [isOkE] at h, fun h => ?_⟩
        exfalso
        rcases h.2 with h1 | ⟨e2, he2, _⟩
        · exact h1 hacc
        · exact Option.noConfusion he2
      | some e =>
        by_cases hcond : e ≠ 0 ∧ now + 300000 ≥ e
        · have hE : ensureAuthenticated now env st =
              refreshAccessToken now env st := by
            unfold ensureAuthenticated
            rw [if_neg (by simp [hacc])]
            simp only [hexp]
            rw [if_pos hcond]
          rw [hE]
          cases hres : env.refreshResult with
          | ok td =>
            have hR : refreshAccessToken now env st =
                (Except.ok (installTokens now td st), [TokenCall.refreshCall]) := by
              unfold refreshAccessToken
              rw [hres]
            rw [hR]
            refine ⟨fun h => by simp [isOkE] at h, fun h => ?_⟩
            exfalso
            rcases h.2 with h1 | ⟨e2, he2, _, _, hrf⟩
            · exact h1 hacc
            · simp [isOkE] at hrf
          | error m =>
            have hR : refreshAccessToken now env st =
                ((authenticate now env st).1,
                  TokenCall.refreshCall :: (authenticate now env st).2) := by
              unfold refreshAccessToken
              rw [hres]
            rw [hR]
            exact ⟨fun h => ⟨h, Or.inr ⟨e, rfl, hcond.1, hcond.2, rfl⟩⟩,
              fun h => h.1⟩
        · have hE : ensureAuthenticated now env st = (Except.ok st, []) := by
            unfold ensureAuthenticated
            rw [if_neg (by simp [hacc])]
            simp only [hexp]
            rw [if_neg hcond]
          rw [hE]
          refine ⟨fun h => by simp [isOkE] at h, fun h => ?_⟩
          exfalso
          rcases h.2 with h1 | ⟨e2, he2, hne, hmar, _⟩
          · exact h1 hacc
          · cases Option.some.inj he2
            exact hcond ⟨hne, hmar⟩
    · have hE : ensureAuthenticated now env st = authenticate now env st := by
        unfold ensureAuthenticated
        rw [if_pos hacc]
      rw [hE]
      exact ⟨fun h => ⟨h, Or.inl hacc⟩, fun h => h.1⟩

/-- Witness for `ensureValid_refresh_fallback`: with a token pair one
second past expiry, a failing refresh grant and a failing authenticate
grant, the refresh attempt is followed by exactly one `npsso_code`
exchange and `ensureValid` fails; the failure characterization holds at
the same input. -/
theorem ensureValid_refresh_fallback_witness :
    (refreshAccessToken 1000
        ⟨Except.error "auth down", Except.error "refresh down"⟩
        ⟨some "npsso", some "tok", some "ref", some 999⟩ =
      ((authenticate 1000
          ⟨Except.error "auth down", Except.error "refresh down"⟩
          ⟨some "npsso", some "tok", some "ref", some 999⟩).1,
        TokenCall.refreshCall ::
          (authenticate 1000
            ⟨Except.error "auth down", Except.error "refresh down"⟩
            ⟨some "npsso", some "tok", some "ref", some 999⟩).2))
    ∧ (authenticate 1000
        ⟨Except.error "auth down", Except.error "refresh down"⟩
        ⟨some "npsso", some "tok", some "ref", some 999⟩).2 =
      [TokenCall.authCall]
    ∧ isOkE (ensureAuthenticated 1000
        ⟨Except.error "auth down", Except.error "refresh down"⟩
        ⟨some "npsso", some "tok", some "ref", some 999⟩).1 = false := by
  have h := ensureValid_refresh_fallback 1000
    ⟨Except.error "auth down", Except.error "refresh down"⟩
    ⟨some "npsso", some "tok", some "ref", some 999⟩
  refine ⟨(h.1 "refresh down" rfl).1, (h.1 "refresh down" rfl).2.2 (by decide), ?_⟩
  exact h.2.mpr ⟨rfl, Or.inr ⟨999, rfl, by decide, by decide, rfl⟩⟩

/-- C10: with an access token present but `tokenExpiry` null, the
truthiness guard `if (this.tokenExpiry && ...)` short-circuits, so
`ensureAuthenticated` performs no refresh and no re-authentication and
returns normally — the stored access token is used regardless of its
age. -/
theorem ensureAuthenticated_null_expiry (now : Nat) (env : AuthEnv)
    (st : APIState) (htok : truthyStr st.accessToken)
    (hexp : st.tokenExpiry = none) :
    ensureAuthenticated now env st = (Except.ok st, []) := by
  simp [ensureAuthenticated, htok, hexp]

/-- Witness for `ensureAuthenticated_null_expiry`: a concrete state
with a stale-looking access token and no recorded expiry is returned
unchanged with no token-endpoint call. -/
theorem ensureAuthenticated_null_expiry_witness :
    ensureAuthenticated 999999999
      ⟨Except.ok ⟨"a", "r", 3600⟩, Except.ok ⟨"a2", "r2", 3600⟩⟩
      ⟨some "npsso", some "oldToken", some "ref", none⟩ =
    (Except.ok ⟨some "npsso", some "oldToken", some "ref", none⟩, []) :=
  ensureAuthenticated_null_expiry 999999999 _ _ (by decide) rfl

/-! ## Plugin layer (`index.js`, class `PlayStationPlugin`)

`activeSessions` is a `Map` from PSN account id to a session record
whose fields (`suspended`, `suspendedAt`, `resumedAt`, `lastActive`,
`currentGame`) are set dynamically; we embed it as an association list
with JavaScript `Map` get/set semantics and the record's absent fields
as `Option`.  The outbound family-management calls issued by the plugin
(`setPlayTimeLimit`, `blockGame`, `unblockGame`) and the emitted
notifications are recorded explicitly; their success or failure is
supplied by a `remote` environment. -/

/-- One entry of `this.activeSessions`; fields absent on the JS object
are `none`. -/
structure Session where
  suspended : Option Bool := none
  suspendedAt : Option Nat := none
  resumedAt : Option Nat := none
  lastActive : Option Nat := none
  currentGame : Option String := none
deriving Repr, DecidableEq, Inhabited

/-- `this.activeSessions` as an association list. -/
abbrev SessionMap := List (String × Session)

/-- `Map.prototype.get`: the value under `k`, if any. -/
def sessionGet : SessionMap → String → Option Session
  | [], _ => none
  | (k2, v2) :: rest, k => if k2 = k then some v2 else sessionGet rest k

/-- `Map.prototype.set`: replace the binding of `k`, or append it. -/
def sessionSet : SessionMap → String → Session → SessionMap
  | [], k, v => [(k, v)]
  | (k2, v2) :: rest, k, v =>
      if k2 = k then (k, v) :: rest else (k2, v2) :: sessionSet rest k v

theorem sessionGet_sessionSet_same (m : SessionMap) (k : String) (v : Session) :
    sessionGet (sessionSet m k v) k = some v := by
  induction m with
  | nil => simp [sessionSet, sessionGet]
  | cons p rest ih =>
    obtain ⟨k2, v2⟩ := p
    by_cases h : k2 = k
    · simp [sessionSet, sessionGet, h]
    · simp [sessionSet, sessionGet, h, ih]

/-- One entry of a `state.restrictions.games` list; `action` is the raw
string the source compares against `'block'` and `'unblock'`. -/
structure GameRestriction where
  action : String
  gameId : String
deriving Repr, DecidableEq, Inhabited

/-- An outbound family-management call issued by the plugin through the
`PlayStationAPI` wrapper. -/
inductive RemoteCall where
  | setPlayTimeLimitCall (accountId : String) (limitMinutes : Int)
  | blockGameCall (accountId : String) (gameId : String)
  | unblockGameCall (accountId : String) (gameId : String)
deriving Repr, DecidableEq

/-- A notification emitted with `this.emit`. -/
inductive PluginEvent where
  | sessionSuspended (accountId : String)
  | sessionResumed (accountId : String)
  | restrictionsApplied (accountId : String) (restrictions : List GameRestriction)
deriving Repr, DecidableEq

/-- Request body that `setPlayTimeLimit(accountId, limitMinutes)` PUTs
to `/playTimeSettings`: `dailyPlayTimeLimit: limitMinutes` and
`enabled: limitMinutes > 0`. -/
structure PlayTimePayload where
  dailyPlayTimeLimit : Int
  enabled : Bool
deriving Repr, DecidableEq

/-- The payload built by `setPlayTimeLimit` for a given limit. -/
def setPlayTimeLimitPayload (limitMinutes : Int) : PlayTimePayload :=
  { dailyPlayTimeLimit := limitMinutes, enabled := decide (0 < limitMinutes) }

/-- Result of one suspend/resume operation: the thrown-or-returned
outcome, the updated `activeSessions`, the outbound calls attempted and
the notifications emitted. -/
structure SessionOpResult where
  result : Except String Unit
  sessions : SessionMap
  remoteCalls : List RemoteCall
  events : List PluginEvent
deriving Repr

/-- `this.config.defaultDailyLimit || 480` (JavaScript `||`: `null`,
`undefined` and `0` fall through to the 480-minute default). -/
def defaultLimitOr480 (defaultDailyLimit : Option Int) : Int :=
  match defaultDailyLimit with
  | some v => if v ≠ 0 then v else 480
  | none => 480

/-- `_suspendSession(psnAccount)`: `setPlayTimeLimit(accountId, 0)`;
on success mark the session `suspended = true`, stamp `suspendedAt`,
and emit `sessionSuspended`; on failure re-throw without touching local
state. -/
def suspendSession (remote : RemoteCall → Except String Unit) (now : Nat)
    (sessions : SessionMap) (accountId : String) : SessionOpResult :=
  let call := RemoteCall.setPlayTimeLimitCall accountId 0
  match remote call with
  | Except.error m => ⟨Except.error m, sessions, [call], []⟩
  | Except.ok _ =>
      let s := (sessionGet sessions accountId).getD {}
      let s2 := { s with suspended := some true, suspendedAt := some now }
      ⟨Except.ok (), sessionSet sessions accountId s2, [call],
        [PluginEvent.sessionSuspended accountId]⟩

/-- `_resumeSession(psnAccount)`: `setPlayTimeLimit(accountId,
config.defaultDailyLimit || 480)`; on success mark the session
`suspended = false`, stamp `resumedAt`, and emit `sessionResumed`; on
failure re-throw without touching local state. -/
def resumeSession (remote : RemoteCall → Except String Unit)
    (defaultDailyLimit : Option Int) (now : Nat) (sessions : SessionMap)
    (accountId : String) : SessionOpResult :=
  let call := RemoteCall.setPlayTimeLimitCall accountId
    (defaultLimitOr480 defaultDailyLimit)
  match remote call with
  | Except.error m => ⟨Except.error m, sessions, [call], []⟩
  | Except.ok _ =>
      let s := (sessionGet sessions accountId).getD {}
      let s2 := { s with suspended := some false, resumedAt := some now }
      ⟨Except.ok (), sessionSet sessions accountId s2, [call],
        [PluginEvent.sessionResumed accountId]⟩

/-- C6: `resume` is no-op-safe and idempotent on local state.  A resume
issues exactly the one remote call setting the configured default limit
(480 minutes when `defaultDailyLimit` is unset), marks the local
session `suspended = false` and emits `sessionResumed`; resuming again
on the already-resumed account issues a second remote call, leaves
`suspended = false` unchanged, and both calls return without error. -/
theorem resumeSession_idempotent (remote : RemoteCall → Except String Unit)
    (defaultDailyLimit : Option Int) (t1 t2 : Nat) (sessions : SessionMap)
    (accountId : String)
    (hremote : remote (RemoteCall.setPlayTimeLimitCall accountId
        (defaultLimitOr480 defaultDailyLimit)) = Except.ok ()) :
    let r1 := resumeSession remote defaultDailyLimit t1 sessions accountId
    let r2 := resumeSession remote defaultDailyLimit t2 r1.sessions accountId
    r1.remoteCalls = [RemoteCall.setPlayTimeLimitCall accountId
        (defaultLimitOr480 defaultDailyLimit)]
    ∧ defaultLimitOr480 none = 480
    ∧ r1.result = Except.ok ()
    ∧ r1.events = [PluginEvent.sessionResumed accountId]
    ∧ (sessionGet r1.sessions accountId).map Session.suspended = some (some false)
    ∧ r2.result = Except.ok ()
    ∧ (sessionGet r2.sessions accountId).map Session.suspended = some (some false)
    ∧ r2.events = [PluginEvent.sessionResumed accountId]
    ∧ (r1.remoteCalls ++ r2.remoteCalls).length = 2 := by
  simp only [resumeSession, hremote]
  simp [sessionGet_sessionSet_same]
  rfl

/-- Witness for `resumeSession_idempotent` at a concrete account with
no configured default limit and a succeeding remote. -/
theorem resumeSession_idempotent_witness :
    let remote : RemoteCall → Except String Unit := fun _ => Except.ok ()
    let r1 := resumeSession remote none 100 [] "acct1"
    let r2 := resumeSession remote none 200 r1.sessions "acct1"
    r1.remoteCalls = [RemoteCall.setPlayTimeLimitCall "acct1" (defaultLimitOr480 none)]
    ∧ defaultLimitOr480 none = 480
    ∧ r1.result = Except.ok ()
    ∧ r1.events = [PluginEvent.sessionResumed "acct1"]
    ∧ (sessionGet r1.sessions "acct1").map Session.suspended = some (some false)
    ∧ r2.result = Except.ok ()
    ∧ (sessionGet r2.sessions "acct1").map Session.suspended = some (some false)
    ∧ r2.events = [PluginEvent.sessionResumed "acct1"]
    ∧ (r1.remoteCalls ++ r2.remoteCalls).length = 2 :=
  resumeSession_idempotent (fun _ => Except.ok ()) none 100 200 [] "acct1" rfl

/-- C9: the payload trichotomy of `setPlayTimeLimit` and the suspend
path.  The `enabled` field of the PUT body equals `limitMinutes > 0`;
`_suspendSession` issues exactly the call `setPlayTimeLimit(accountId,
0)`, whose body is `dailyPlayTimeLimit: 0, enabled: false` — the daily
play-time limit setting is disabled remotely rather than enforced as a
zero-minute limit. -/
theorem setPlayTimeLimit_enabled_flag :
    (∀ limitMinutes : Int,
        (setPlayTimeLimitPayload limitMinutes).enabled = decide (0 < limitMinutes))
    ∧ (∀ (remote : RemoteCall → Except String Unit) (now : Nat)
          (sessions : SessionMap) (accountId : String),
        (suspendSession remote now sessions accountId).remoteCalls =
          [RemoteCall.setPlayTimeLimitCall accountId 0])
    ∧ setPlayTimeLimitPayload 0 = { dailyPlayTimeLimit := 0, enabled := false } := by
  refine ⟨fun _ => rfl, ?_, rfl⟩
  intro remote now sessions accountId
  cases h : remote (RemoteCall.setPlayTimeLimitCall accountId 0) with
  | ok u => simp [suspendSession, h]
  | error m => simp [suspendSession, h]

/-- The single remote call corresponding to one restrictions entry:
`action === 'block'` issues `blockGame`, `action === 'unblock'` issues
`unblockGame`, anything else issues nothing. -/
def restrictionCall (accountId : String) (r : GameRestriction) : Option RemoteCall :=
  if r.action = "block" then some (RemoteCall.blockGameCall accountId r.gameId)
  else if r.action = "unblock" then some (RemoteCall.unblockGameCall accountId r.gameId)
  else none

/-- The `for (const restriction of gameRestrictions)` loop of
`_applyGameRestrictions`: issue each entry's remote call in list order;
the first failing call throws out of the loop (later entries are not
attempted).  Returns the outcome and the calls issued. -/
def applyLoop (remote : RemoteCall → Except String Unit) (accountId : String) :
    List GameRestriction → Except String Unit × List RemoteCall
  | [] => (Except.ok (), [])
  | r :: rest =>
      match restrictionCall accountId r with
      | some c =>
          match remote c with
          | Except.ok _ =>
              let t := applyLoop remote accountId rest
              (t.1, c :: t.2)
          | Except.error m => (Except.error m, [c])
      | none => applyLoop remote accountId rest

/-- `_applyGameRestrictions(psnAccount, gameRestrictions)`: run the
loop; on success emit `restrictionsApplied`; on failure re-throw the
entry's error (no rollback of the calls already issued). -/
def applyGameRestrictions (remote : RemoteCall → Except String Unit)
    (accountId : String) (gameRestrictions : List GameRestriction) :
    Except String Unit × List RemoteCall × List PluginEvent :=
  match applyLoop remote accountId gameRestrictions with
  | (Except.ok _, cs) =>
      (Except.ok (), cs,
        [PluginEvent.restrictionsApplied accountId gameRestrictions])
  | (Except.error m, cs) => (Except.error m, cs, [])

/-- Step equation: a `restrictions` entry matching neither `'block'`
nor `'unblock'` issues no call and the loop moves on. -/
theorem applyLoop_cons_skip (remote : RemoteCall → Except String Unit)
    (accountId : String) (r : GameRestriction) (rest : List GameRestriction)
    (hc : restrictionCall accountId r = none) :
    applyLoop remote accountId (r :: rest) = applyLoop remote accountId rest := by
  simp [applyLoop, hc]

/-- Step equation: an entry whose call succeeds contributes its call
and the loop continues with the remaining entries. -/
theorem applyLoop_cons_ok (remote : RemoteCall → Except String Unit)
    (accountId : String) (r : GameRestriction) (rest : List GameRestriction)
    (c : RemoteCall) (hc : restrictionCall accountId r = some c)
    (hok : remote c = Except.ok ()) :
    applyLoop remote accountId (r :: rest) =
      ((applyLoop remote accountId rest).1,
        c :: (applyLoop remote accountId rest).2) := by
  simp [applyLoop, hc, hok]

/-- Step equation: an entry whose call fails throws immediately; no
further entry is attempted. -/
theorem applyLoop_cons_err (remote : RemoteCall → Except String Unit)
    (accountId : String) (r : GameRestriction) (rest : List GameRestriction)
    (c : RemoteCall) (m : String) (hc : restrictionCall accountId r = some c)
    (hfail : remote c = Except.error m) :
    applyLoop remote accountId (r :: rest) = (Except.error m, [c]) := by
  simp [applyLoop, hc, hfail]

/-- C7: `_applyGameRestrictions` is sequential, in list order, and
fail-fast.  When every entry's call succeeds the loop issues the calls
of the entries exactly in list order; when the first failing entry is
reached, the calls issued are those of the preceding entries followed
by the failing call, later entries are never attempted, and that
entry's error propagates; and on a list of `block`/`unblock` entries
the loop issues exactly one remote call per entry. -/
theorem applyGameRestrictions_sequential
    (remote : RemoteCall → Except String Unit) (accountId : String) :
    (∀ rs : List GameRestriction,
        (∀ c ∈ rs.filterMap (restrictionCall accountId), remote c = Except.ok ()) →
        applyLoop remote accountId rs =
          (Except.ok (), rs.filterMap (restrictionCall accountId)))
    ∧ (∀ (pre : List GameRestriction) (r : GameRestriction)
          (post : List GameRestriction) (c : RemoteCall) (m : String),
        (∀ c2 ∈ pre.filterMap (restrictionCall accountId),
          remote c2 = Except.ok ()) →
        restrictionCall accountId r = some c → remote c = Except.error m →
        applyLoop remote accountId (pre ++ r :: post) =
          (Except.error m, pre.filterMap (restrictionCall accountId) ++ [c]))
    ∧ (∀ rs : List GameRestriction,
        (∀ r2 ∈ rs, r2.action = "block" ∨ r2.action = "unblock") →
        (rs.filterMap (restrictionCall accountId)).length = rs.length) := by
  refine ⟨?_, ?_, ?_⟩
  · intro rs
    induction rs with
    | nil => intro _; rfl
    | cons r rest ih =>
      intro h
      cases hc : restrictionCall accountId r with
      | none =>
        rw [applyLoop_cons_skip remote accountId r rest hc]
        rw [List.filterMap_cons_none hc] at h ⊢
        exact ih h
      | some c =>
        have hok : remote c = Except.ok () := by
          apply h
          rw [List.filterMap_cons_some hc]
          exact List.mem_cons_self c _
        have hrest : ∀ c2 ∈ rest.filterMap (restrictionCall accountId),
            remote c2 = Except.ok () := by
          intro c2 hc2
          apply h
          rw [List.filterMap_cons_some hc]
          exact List.mem_cons_of_mem c hc2
        rw [applyLoop_cons_ok remote accountId r rest c hc hok, ih hrest,
          List.filterMap_cons_some hc]
  · intro pre
    induction pre with
    | nil =>
      intro r post c m _ hc hfail
      simp only [List.nil_append, List.filterMap_nil]
      exact applyLoop_cons_err remote accountId r post c m hc hfail
    | cons p pre2 ih =>
      intro r post c m hpre hc hfail
      cases hp : restrictionCall accountId p with
      | none =>
        rw [List.cons_append, applyLoop_cons_skip remote accountId p _ hp]
        rw [List.filterMap_cons_none hp] at hpre ⊢
        exact ih r post c m hpre hc hfail
      | some c2 =>
        have hok : remote c2 = Except.ok () := by
          apply hpre
          rw [List.filterMap_cons_some hp]
          exact List.mem_cons_self c2 _
        have hpre2 : ∀ c3 ∈ pre2.filterMap (restrictionCall accountId),
            remote c3 = Except.ok () := by
          intro c3 hc3
          apply hpre
          rw [List.filterMap_cons_some hp]
          exact List.mem_cons_of_mem c2 hc3
        rw [List.cons_append, applyLoop_cons_ok remote accountId p _ c2 hp hok,
          ih r post c m hpre2 hc hfail, List.filterMap_cons_some hp]
        rfl
  · intro rs
    induction rs with
    | nil => intro _; rfl
    | cons r rest ih =>
      intro h
      have hrest := fun r2 h2 => h r2 (List.mem_cons_of_mem r h2)
      rcases h r (List.mem_cons_self r rest) with hb | hu
      · have hc : restrictionCall accountId r =
            some (RemoteCall.blockGameCall accountId r.gameId) := by
          unfold restrictionCall
          rw [hb, if_pos rfl]
        rw [List.filterMap_cons_some hc]
        simp [ih hrest]
      · have hc : restrictionCall accountId r =
            some (RemoteCall.unblockGameCall accountId r.gameId) := by
          unfold restrictionCall
          rw [hu, if_neg (by decide), if_pos rfl]
        rw [List.filterMap_cons_some hc]
        simp [ih hrest]

/-- Witness for `applyGameRestrictions_sequential`: on
`[{block, g1}, {unblock, g2}]` with a succeeding remote, exactly the
two calls `blockGame(g1)`, `unblockGame(g2)` are issued in that order;
with a remote failing on the first call, only `blockGame(g1)` is
issued, `unblockGame(g2)` is never attempted and the error surfaces;
and that list has exactly one call per entry. -/
theorem applyGameRestrictions_sequential_witness :
    applyLoop (fun _ => Except.ok ()) "acct1" [⟨"block", "g1"⟩, ⟨"unblock", "g2"⟩] =
      (Except.ok (), [RemoteCall.blockGameCall "acct1" "g1",
        RemoteCall.unblockGameCall "acct1" "g2"])
    ∧ applyLoop (fun _ => Except.error "boom") "acct1"
        [⟨"block", "g1"⟩, ⟨"unblock", "g2"⟩] =
      (Except.error "boom", [RemoteCall.blockGameCall "acct1" "g1"])
    ∧ (([⟨"block", "g1"⟩, ⟨"unblock", "g2"⟩] : List GameRestriction).filterMap
        (restrictionCall "acct1")).length = 2 := by
  refine ⟨?_, ?_, ?_⟩
  · exact (applyGameRestrictions_sequential (fun _ => Except.ok ()) "acct1").1
      [⟨"block", "g1"⟩, ⟨"unblock", "g2"⟩] (fun _ _ => rfl)
  · exact (applyGameRestrictions_sequential
        (fun _ => Except.error "boom") "acct1").2.1
      [] ⟨"block", "g1"⟩ [⟨"unblock", "g2"⟩]
      (RemoteCall.blockGameCall "acct1" "g1") "boom"
      (fun c2 hc2 => by simp at hc2) (by decide) rfl
  · have h := (applyGameRestrictions_sequential
        (fun _ => Except.ok ()) "acct1").2.2
      [⟨"block", "g1"⟩, ⟨"unblock", "g2"⟩]
      (by
        intro r2 h2
        simp only [List.mem_cons, List.not_mem_nil, or_false] at h2
        rcases h2 with h2 | h2
        · rw [h2]; exact Or.inl rfl
        · rw [h2]; exact Or.inr rfl)
    simpa using h

/-! ## Batch state processing (`newState` / `_processChildState`)

`newState(allow2State)` iterates `allow2State.children`, calling
`_processChildState` for each child and pushing one result object per
child.  `_processChildState` resolves the PSN account mapping (a
missing mapping returns a `skipped` result, not a failure), then runs
the suspend/resume/quota/restrictions logic inside a `try` whose
`catch` converts any error into that child's own `failed` result — so
an error in one child never aborts the siblings.  The outcomes of the
child's outbound effects (`_checkQuota`, which wraps `getPlayTime` plus
`allow2.check`, and the family-management calls) are supplied by a
per-child environment. -/

/-- One entry of `config.accountMapping`. -/
structure AccountMapping where
  childId : String
  psnAccountId : String
deriving Repr, DecidableEq

/-- The plugin configuration fields used by state processing. -/
structure PluginConfig where
  npsso : Option String
  accountMapping : List AccountMapping
  defaultDailyLimit : Option Int
deriving Repr

/-- `_getPSNAccountForChild(childId)`:
`config.accountMapping.find(m => m.childId === childId)`, mapped to the
PSN account id (`null` when no mapping exists). -/
def getPSNAccountForChild (config : PluginConfig) (childId : String) :
    Option String :=
  (config.accountMapping.find? fun m2 => m2.childId == childId).map
    AccountMapping.psnAccountId

/-- One child's slice of the Allow2 state:
`state.blocked`, `state.blockedReason`, and
`state.restrictions && state.restrictions.games`. -/
structure ChildState where
  blocked : Bool
  blockedReason : Option String
  restrictionGames : Option (List GameRestriction)
deriving Repr

/-- Result of `_checkQuota` (which wraps `getPlayTime` and
`allow2.check`). -/
structure QuotaCheck where
  allowed : Bool
  remaining : Int
deriving Repr, DecidableEq

/-- Outcomes of the external calls performed while processing one
child. -/
structure ChildEnv where
  quota : Except String QuotaCheck
  remote : RemoteCall → Except String Unit

/-- An entry of the `actions` array accumulated by
`_processChildState`. -/
inductive ActionTaken where
  | suspendTaken (reason : Option String)
  | resumeTaken
  | restrictionsTaken (games : List GameRestriction)
deriving Repr, DecidableEq

/-- The final `state.restrictions && state.restrictions.games` step of
`_processChildState`: apply the game restrictions when present, append
the `restrictions` action on success, propagate the error on
failure. -/
def applyRestrictionsStep (env : ChildEnv) (accountId : String)
    (state : ChildState) (actions : List ActionTaken) (sessions : SessionMap) :
    Except String (List ActionTaken) × SessionMap :=
  match state.restrictionGames with
  | some games =>
      match (applyGameRestrictions env.remote accountId games).1 with
      | Except.ok _ =>
          (Except.ok (actions ++ [ActionTaken.restrictionsTaken games]), sessions)
      | Except.error m => (Except.error m, sessions)
  | none => (Except.ok actions, sessions)

/-- The `try` body of `_processChildState` after the mapping resolved:
blocked children are suspended; otherwise the quota is checked and the
child is resumed (when allowed and locally suspended) or suspended
(when exhausted); finally game restrictions are applied.  Any failing
step throws with the session map as mutated so far. -/
def processChildBody (env : ChildEnv) (config : PluginConfig) (now : Nat)
    (sessions : SessionMap) (accountId : String) (state : ChildState) :
    Except String (List ActionTaken) × SessionMap :=
  if state.blocked then
    let r := suspendSession env.remote now sessions accountId
    match r.result with
    | Except.error m => (Except.error m, r.sessions)
    | Except.ok _ =>
        applyRestrictionsStep env accountId state
          [ActionTaken.suspendTaken state.blockedReason] r.sessions
  else
    match env.quota with
    | Except.error m => (Except.error m, sessions)
    | Except.ok q =>
        if q.allowed then
          match sessionGet sessions accountId with
          | some s =>
              if s.suspended = some true then
                let r := resumeSession env.remote config.defaultDailyLimit now
                  sessions accountId
                match r.result with
                | Except.error m => (Except.error m, r.sessions)
                | Except.ok _ =>
                    applyRestrictionsStep env accountId state
                      [ActionTaken.resumeTaken] r.sessions
              else applyRestrictionsStep env accountId state [] sessions
          | none => applyRestrictionsStep env accountId state [] sessions
        else
          let r := suspendSession env.remote now sessions accountId
          match r.result with
          | Except.error m => (Except.error m, r.sessions)
          | Except.ok _ =>
              applyRestrictionsStep env accountId state
                [ActionTaken.suspendTaken (some "Quota exhausted")] r.sessions

/-- The per-child result object pushed into the batch response. -/
inductive ChildResult where
  | skipped (childId : String) (reason : String)
  | succeeded (childId : String) (psnAccountId : String)
      (actions : List ActionTaken)
  | failed (childId : String) (error : String)
deriving Repr, DecidableEq

/-- The `childId` field present on every result shape. -/
def ChildResult.cid : ChildResult → String
  | ChildResult.skipped c _ => c
  | ChildResult.succeeded c _ _ => c
  | ChildResult.failed c _ => c

/-- `_processChildState(childId, state)`: a missing mapping yields the
skip result; otherwise the `try` body runs and its error, if any, is
caught and turned into this child's own `failed` result. -/
def processChildState (env : ChildEnv) (config : PluginConfig) (now : Nat)
    (sessions : SessionMap) (childId : String) (state : ChildState) :
    ChildResult × SessionMap :=
  match getPSNAccountForChild config childId with
  | none => (ChildResult.skipped childId "No PSN account mapped", sessions)
  | some accountId =>
      match processChildBody env config now sessions accountId state with
      | (Except.ok actions, sessions2) =>
          (ChildResult.succeeded childId accountId actions, sessions2)
      | (Except.error m, sessions2) => (ChildResult.failed childId m, sessions2)

/-- The `for (const childId in allow2State.children)` loop of
`newState`: process the children in order, threading the session map,
collecting one result per child. -/
def processChildren (envs : String → ChildEnv) (config : PluginConfig)
    (now : Nat) : SessionMap → List (String × ChildState) →
    List ChildResult × SessionMap
  | sessions, [] => ([], sessions)
  | sessions, (childId, state) :: rest =>
      let first := processChildState (envs childId) config now sessions
        childId state
      let others := processChildren envs config now first.2 rest
      (first.1 :: others.1, others.2)

/-- `newState(allow2State)`: reject when the plugin is not initialized,
otherwise run the per-child loop and return the batch of results. -/
def newState (envs : String → ChildEnv) (config : PluginConfig) (now : Nat)
    (isInitialized : Bool) (sessions : SessionMap)
    (children : List (String × ChildState)) :
    Except String (List ChildResult) × SessionMap :=
  if isInitialized then
    let out := processChildren envs config now sessions children
    (Except.ok out.1, out.2)
  else
    (Except.error "Plugin not initialized", sessions)

theorem processChildState_shape (env : ChildEnv) (config : PluginConfig)
    (now : Nat) (sessions : SessionMap) (childId : String) (state : ChildState) :
    ChildResult.cid (processChildState env config now sessions childId state).1 =
      childId
    ∧ (getPSNAccountForChild config childId = none →
        (processChildState env config now sessions childId state).1 =
          ChildResult.skipped childId "No PSN account mapped") := by
  cases hmap : getPSNAccountForChild config childId with
  | none => exact ⟨by simp [processChildState, hmap, ChildResult.cid], fun _ => by
      simp [processChildState, hmap]⟩
  | some accountId =>
    refine ⟨?_, fun hcontra => Option.noConfusion hcontra⟩
    rcases hb : processChildBody env config now sessions accountId state with
      ⟨res, sessions2⟩
    cases res with
    | ok actions => simp [processChildState, hmap, hb, ChildResult.cid]
    | error m => simp [processChildState, hmap, hb, ChildResult.cid]

/-- C8: batch isolation and skip semantics of `newState`.  On an
initialized plugin the batch always succeeds with exactly one result
per submitted child identifier, in order and carrying that identifier —
whatever errors the per-child environments produce, one child's failure
never aborts a sibling's processing — and every identifier with no
mapped PSN account gets the skip result (`skipped`, not a failure). -/
theorem newState_batch_isolation (envs : String → ChildEnv)
    (config : PluginConfig) (now : Nat) (sessions : SessionMap)
    (children : List (String × ChildState)) :
    ∃ rs : List ChildResult,
      (newState envs config now true sessions children).1 = Except.ok rs
      ∧ List.Forall₂ (fun (res : ChildResult) (c : String × ChildState) =>
          ChildResult.cid res = c.1
          ∧ (getPSNAccountForChild config c.1 = none →
              res = ChildResult.skipped c.1 "No PSN account mapped"))
        rs children := by
  refine ⟨(processChildren envs config now sessions children).1, rfl, ?_⟩
  induction children generalizing sessions with
  | nil => exact List.Forall₂.nil
  | cons c rest ih =>
    obtain ⟨childId, state⟩ := c
    rw [show processChildren envs config now sessions ((childId, state) :: rest) =
        ((processChildState (envs childId) config now sessions childId state).1 ::
          (processChildren envs config now
            (processChildState (envs childId) config now sessions childId
              state).2 rest).1,
          (processChildren envs config now
            (processChildState (envs childId) config now sessions childId
              state).2 rest).2) from rfl]
    exact List.Forall₂.cons
      (processChildState_shape (envs childId) config now sessions childId state)
      (ih _)

/-- Witness for `newState_batch_isolation`: a concrete batch of two
children — one unmapped, one mapped but with every external call of its
processing failing — still yields a successful batch with exactly two
results. -/
theorem newState_batch_isolation_witness :
    ∃ rs : List ChildResult,
      (newState
          (fun _ => ⟨Except.error "quota down", fun _ => Except.error "psn down"⟩)
          ⟨some "npsso", [⟨"c2", "acct2"⟩], none⟩ 0 true []
          [("c1", ⟨false, none, none⟩), ("c2", ⟨false, none, none⟩)]).1 =
        Except.ok rs
      ∧ rs.length = 2 := by
  obtain ⟨rs, h1, h2⟩ := newState_batch_isolation
    (fun _ => ⟨Except.error "quota down", fun _ => Except.error "psn down"⟩)
    ⟨some "npsso", [⟨"c2", "acct2"⟩], none⟩ 0 []
    [("c1", ⟨false, none, none⟩), ("c2", ⟨false, none, none⟩)]
  exact ⟨rs, h1, h2.length_eq.trans rfl⟩

end PSN
